import Mathlib

/-!
Shallow embedding of the quiz-validation and course-progress-gating
subsystem of the SkillCert backend.

Part 1: the quiz structural validator (`QuizValidationService` in the
source).  Pure TypeScript methods that throw `BadRequestException(msg)`
are embedded as functions returning `Except String Unit`, where the
`String` is the exact exception message.

Part 2: the progress gate (`CourseProgressService`).  The TypeORM
repositories are embedded as lists inside an explicit database state
`Db`; `findOne` becomes `List.find?`, `find` with a where-clause becomes
`List.filter`, `count` becomes the length of the corresponding filter,
and `save` either appends a created row or overwrites the first row
matched by the find-then-save pattern.
-/

/-- Question types, from the `QuestionType` enum used in
`quiz-validation.service.ts` (UNIQUE, MULTIPLE, TEXT, BOOL); `OTHER`
stands for any runtime value outside the enum, handled by the `default`
branch of the switch. -/
inductive QuestionType where
  | UNIQUE
  | MULTIPLE
  | TEXT
  | BOOL
  | OTHER
deriving DecidableEq

/-- An answer option of a question: `text` and `correct` flag. -/
structure Answer where
  text : String
  correct : Bool
deriving DecidableEq

/-- The question payload of a quiz-creation request. -/
structure CreateQuestionDto where
  type : QuestionType
  answers : List Answer
deriving DecidableEq

/-- The quiz-creation request: its list of questions. -/
structure CreateQuizDto where
  questions : List CreateQuestionDto
deriving DecidableEq

deriving instance DecidableEq for Except

/-- JavaScript's `toLowerCase`, embedded as a per-character lowercase
map (agrees with it on the ASCII texts the validator compares). -/
def toLowerStr (s : String) : String := ⟨s.data.map Char.toLower⟩

/-- The `questionPrefix` string built in `validateQuestion`:
`Question ${questionIndex + 1}` (the source's 0-based index shown
1-based). -/
def qLabel (questionIndex : Nat) : String :=
  s!"Question {questionIndex + 1}"

/-- `validateUniqueQuestion`: at least 2 answers and exactly one marked
correct. -/
def validateUniqueQuestion (question : CreateQuestionDto)
    (questionLabel : String) : Except String Unit :=
  if question.answers.length < 2 then
    Except.error
      (questionLabel ++ ": Unique choice questions must have at least 2 answers")
  else
    let correctAnswers := question.answers.filter (fun answer => answer.correct)
    if correctAnswers.length ≠ 1 then
      Except.error
        (questionLabel ++ ": Unique choice questions must have exactly one correct answer")
    else
      Except.ok ()

/-- `validateMultipleQuestion`: at least 2 answers and at least one
marked correct. -/
def validateMultipleQuestion (question : CreateQuestionDto)
    (questionLabel : String) : Except String Unit :=
  if question.answers.length < 2 then
    Except.error
      (questionLabel ++ ": Multiple choice questions must have at least 2 answers")
  else
    let correctAnswers := question.answers.filter (fun answer => answer.correct)
    if correctAnswers.length = 0 then
      Except.error
        (questionLabel ++ ": Multiple choice questions must have at least one correct answer")
    else
      Except.ok ()

/-- `validateTextQuestion`: exactly one answer and it must be marked
correct. -/
def validateTextQuestion (question : CreateQuestionDto)
    (questionLabel : String) : Except String Unit :=
  if question.answers.length ≠ 1 then
    Except.error
      (questionLabel ++ ": Text questions must have exactly one answer")
  else
    match question.answers with
    | [] => Except.ok ()
    | first :: _ =>
      if !first.correct then
        Except.error
          (questionLabel ++ ": Text question answer must be marked as correct")
      else
        Except.ok ()

/-- `validateBoolQuestion`: exactly 2 answers, exactly one correct, and
the lowercased answer texts include the pair true/false or yes/no. -/
def validateBoolQuestion (question : CreateQuestionDto)
    (questionLabel : String) : Except String Unit :=
  if question.answers.length ≠ 2 then
    Except.error
      (questionLabel ++ ": Boolean questions must have exactly 2 answers (true/false)")
  else
    let correctAnswers := question.answers.filter (fun answer => answer.correct)
    if correctAnswers.length ≠ 1 then
      Except.error
        (questionLabel ++ ": Boolean questions must have exactly one correct answer")
    else
      let answerTexts := question.answers.map (fun a => toLowerStr a.text)
      let hasValidBoolOptions :=
        (answerTexts.contains "true" && answerTexts.contains "false") ||
        (answerTexts.contains "yes" && answerTexts.contains "no")
      if !hasValidBoolOptions then
        Except.error
          (questionLabel ++ ": Boolean questions should have true/false or yes/no answers")
      else
        Except.ok ()

/-- `validateQuestion`: the non-empty-answers check, then the dispatch
on the question type (with the `default` branch for unknown types). -/
def validateQuestion (question : CreateQuestionDto)
    (questionIndex : Nat) : Except String Unit :=
  if question.answers.length = 0 then
    Except.error (qLabel questionIndex ++ ": Must have at least one answer")
  else
    match question.type with
    | QuestionType.UNIQUE => validateUniqueQuestion question (qLabel questionIndex)
    | QuestionType.MULTIPLE => validateMultipleQuestion question (qLabel questionIndex)
    | QuestionType.TEXT => validateTextQuestion question (qLabel questionIndex)
    | QuestionType.BOOL => validateBoolQuestion question (qLabel questionIndex)
    | QuestionType.OTHER =>
      Except.error (qLabel questionIndex ++ ": Invalid question type")

/-- The `forEach` loop of `validateQuiz`: validate the questions in
order starting at index `k`; a thrown exception aborts the loop, which
the `Except` bind models. -/
def validateQuestionsFrom : List CreateQuestionDto → Nat → Except String Unit
  | [], _ => Except.ok ()
  | question :: rest, k =>
    match validateQuestion question k with
    | Except.error e => Except.error e
    | Except.ok _ => validateQuestionsFrom rest (k + 1)

/-- `validateQuiz`: empty-quiz check, then per-question validation in
order. -/
def validateQuiz (createQuizDto : CreateQuizDto) : Except String Unit :=
  if createQuizDto.questions.length = 0 then
    Except.error "Quiz must have at least one question"
  else
    validateQuestionsFrom createQuizDto.questions 0

/-- The two messages `validateUniqueQuestion` can throw; the spec's
`InvalidUniqueQuestion` covers exactly these. -/
def isUniqueError (questionLabel msg : String) : Prop :=
  msg = questionLabel ++ ": Unique choice questions must have at least 2 answers" ∨
  msg = questionLabel ++ ": Unique choice questions must have exactly one correct answer"

instance (questionLabel msg : String) : Decidable (isUniqueError questionLabel msg) := by
  unfold isUniqueError; infer_instance

/-- The three messages `validateBoolQuestion` can throw; the spec's
`InvalidBoolQuestion` covers exactly these. -/
def isBoolError (questionLabel msg : String) : Prop :=
  msg = questionLabel ++ ": Boolean questions must have exactly 2 answers (true/false)" ∨
  msg = questionLabel ++ ": Boolean questions must have exactly one correct answer" ∨
  msg = questionLabel ++ ": Boolean questions should have true/false or yes/no answers"

instance (questionLabel msg : String) : Decidable (isBoolError questionLabel msg) := by
  unfold isBoolError; infer_instance

theorem validateQuestionsFrom_error_iff (qs : List CreateQuestionDto) (k : Nat)
    (msg : String) :
    validateQuestionsFrom qs k = Except.error msg ↔
      ∃ i q, qs[i]? = some q ∧ validateQuestion q (k + i) = Except.error msg ∧
        ∀ j p, j < i → qs[j]? = some p → validateQuestion p (k + j) = Except.ok () := by
  induction qs generalizing k with
  | nil => simp [validateQuestionsFrom]
  | cons question rest ih =>
    simp only [validateQuestionsFrom]
    cases hq : validateQuestion question k with
    | error e =>
      constructor
      · intro h
        cases h
        refine ⟨0, question, by simp, by simpa using hq, ?_⟩
        intro j p hj hp
        omega
      · rintro ⟨i, q, hiq, herr, hprev⟩
        cases i with
        | zero =>
          simp only [List.getElem?_cons_zero, Option.some.injEq] at hiq
          subst hiq
          simp only [Nat.add_zero] at herr
          rw [hq] at herr
          exact herr
        | succ i' =>
          have h0 := hprev 0 question (Nat.succ_pos i') (by simp)
          simp only [Nat.add_zero] at h0
          rw [hq] at h0
          exact absurd h0 (by simp)
    | ok u =>
      cases u
      rw [ih (k + 1)]
      constructor
      · rintro ⟨i, q, hiq, herr, hprev⟩
        refine ⟨i + 1, q, by simpa using hiq, ?_, ?_⟩
        · have : k + (i + 1) = k + 1 + i := by omega
          rw [this]
          exact herr
        · intro j p hj hp
          cases j with
          | zero =>
            simp only [List.getElem?_cons_zero, Option.some.injEq] at hp
            subst hp
            simpa using hq
          | succ j' =>
            have : k + (j' + 1) = k + 1 + j' := by omega
            rw [this]
            exact hprev j' p (by omega) (by simpa using hp)
      · rintro ⟨i, q, hiq, herr, hprev⟩
        cases i with
        | zero =>
          simp only [List.getElem?_cons_zero, Option.some.injEq] at hiq
          subst hiq
          simp only [Nat.add_zero] at herr
          rw [hq] at herr
          exact absurd herr (by simp)
        | succ i' =>
          refine ⟨i', q, by simpa using hiq, ?_, ?_⟩
          · have : k + 1 + i' = k + (i' + 1) := by omega
            rw [this]
            exact herr
          · intro j p hj hp
            have : k + 1 + j = k + (j + 1) := by omega
            rw [this]
            exact hprev (j + 1) p (by omega) (by simpa using hp)

/-- C2: `validateQuiz` fails with the empty-quiz error on zero
questions; otherwise it returns exactly the error of the first violated
rule in question order (soundness and completeness of the fail-fast
scan), and within a question the non-empty-answers check precedes the
type-specific rule. -/
theorem validateQuiz_fail_fast (dto : CreateQuizDto) :
    (dto.questions = [] →
      validateQuiz dto = Except.error "Quiz must have at least one question")
    ∧ (∀ msg, validateQuiz dto = Except.error msg → dto.questions ≠ [] →
        ∃ i q, dto.questions[i]? = some q ∧ validateQuestion q i = Except.error msg ∧
          ∀ j p, j < i → dto.questions[j]? = some p →
            validateQuestion p j = Except.ok ())
    ∧ (∀ i q msg, dto.questions[i]? = some q →
        validateQuestion q i = Except.error msg →
        (∀ j p, j < i → dto.questions[j]? = some p →
          validateQuestion p j = Except.ok ()) →
        validateQuiz dto = Except.error msg)
    ∧ (∀ q i, q.answers = [] →
        validateQuestion q i = Except.error (qLabel i ++ ": Must have at least one answer"))
    ∧ (∀ q i, q.answers ≠ [] → validateQuestion q i =
        match q.type with
        | QuestionType.UNIQUE => validateUniqueQuestion q (qLabel i)
        | QuestionType.MULTIPLE => validateMultipleQuestion q (qLabel i)
        | QuestionType.TEXT => validateTextQuestion q (qLabel i)
        | QuestionType.BOOL => validateBoolQuestion q (qLabel i)
        | QuestionType.OTHER => Except.error (qLabel i ++ ": Invalid question type")) := by
  refine ⟨?_, ?_, ?_, ?_, ?_⟩
  · intro h
    simp [validateQuiz, h]
  · intro msg h hne
    have hlen : dto.questions.length ≠ 0 := by
      simpa [List.length_eq_zero] using hne
    rw [validateQuiz, if_neg hlen] at h
    have := (validateQuestionsFrom_error_iff dto.questions 0 msg).mp h
    simpa using this
  · intro i q msg hiq herr hprev
    have hlen : dto.questions.length ≠ 0 := by
      intro h0
      rw [List.length_eq_zero] at h0
      rw [h0] at hiq
      simp at hiq
    rw [validateQuiz, if_neg hlen]
    rw [validateQuestionsFrom_error_iff dto.questions 0 msg]
    exact ⟨i, q, hiq, by simpa using herr, fun j p hj hp => by
      simpa using hprev j p hj hp⟩
  · intro q i h
    have : q.answers.length = 0 := by simp [h]
    simp [validateQuestion, this]
  · intro q i h
    have hlen : q.answers.length ≠ 0 := by
      simpa [List.length_eq_zero] using h
    rw [validateQuestion, if_neg hlen]


/-- C4: a BOOL question passes `validateBoolQuestion` iff it has
exactly 2 answers, exactly 1 correct, and the lowercased texts include
the pair true/false or yes/no; every failure carries an
InvalidBoolQuestion message; the True/False pair passes and the
Maybe/No pair fails. -/
theorem validateBoolQuestion_spec (q : CreateQuestionDto) (questionLabel : String) :
    (validateBoolQuestion q questionLabel = Except.ok () ↔
      (q.answers.length = 2 ∧
       (q.answers.filter (fun a => a.correct)).length = 1 ∧
       (((q.answers.map (fun a => toLowerStr a.text)).contains "true" &&
         (q.answers.map (fun a => toLowerStr a.text)).contains "false") ||
        ((q.answers.map (fun a => toLowerStr a.text)).contains "yes" &&
         (q.answers.map (fun a => toLowerStr a.text)).contains "no")) = true))
    ∧ (∀ msg, validateBoolQuestion q questionLabel = Except.error msg →
        isBoolError questionLabel msg)
    ∧ validateBoolQuestion ⟨QuestionType.BOOL, [⟨"True", true⟩, ⟨"False", false⟩]⟩
        questionLabel = Except.ok ()
    ∧ (∃ msg,
        validateBoolQuestion ⟨QuestionType.BOOL, [⟨"Maybe", true⟩, ⟨"No", false⟩]⟩
          questionLabel = Except.error msg ∧ isBoolError questionLabel msg) := by
  refine ⟨⟨?_, ?_⟩, ?_, ?_, ?_⟩
  · intro h
    simp only [validateBoolQuestion] at h
    by_cases h2 : q.answers.length = 2
    · rw [if_neg (by omega)] at h
      by_cases hc : (q.answers.filter (fun a => a.correct)).length = 1
      · rw [if_neg (by omega)] at h
        by_cases hb :
            (((q.answers.map (fun a => toLowerStr a.text)).contains "true" &&
              (q.answers.map (fun a => toLowerStr a.text)).contains "false") ||
             ((q.answers.map (fun a => toLowerStr a.text)).contains "yes" &&
              (q.answers.map (fun a => toLowerStr a.text)).contains "no")) = true
        · exact ⟨h2, hc, hb⟩
        · rw [if_pos (by rw [Bool.eq_false_iff.mpr hb]; decide)] at h
          exact absurd h (by simp)
      · rw [if_pos (by omega)] at h
        exact absurd h (by simp)
    · rw [if_pos (by omega)] at h
      exact absurd h (by simp)
  · rintro ⟨h2, hc, hb⟩
    simp only [validateBoolQuestion]
    rw [if_neg (by omega), if_neg (by omega), if_neg (by rw [hb]; decide)]
  · intro msg h
    simp only [validateBoolQuestion] at h
    by_cases h2 : q.answers.length = 2
    · rw [if_neg (by omega)] at h
      by_cases hc : (q.answers.filter (fun a => a.correct)).length = 1
      · rw [if_neg (by omega)] at h
        by_cases hb :
            (((q.answers.map (fun a => toLowerStr a.text)).contains "true" &&
              (q.answers.map (fun a => toLowerStr a.text)).contains "false") ||
             ((q.answers.map (fun a => toLowerStr a.text)).contains "yes" &&
              (q.answers.map (fun a => toLowerStr a.text)).contains "no")) = true
        · rw [if_neg (by rw [hb]; decide)] at h
          exact absurd h (by simp)
        · rw [if_pos (by rw [Bool.eq_false_iff.mpr hb]; decide)] at h
          cases h
          exact Or.inr (Or.inr rfl)
      · rw [if_pos (by omega)] at h
        cases h
        exact Or.inr (Or.inl rfl)
    · rw [if_pos (by omega)] at h
      cases h
      exact Or.inl rfl
  · simp only [validateBoolQuestion]
    rw [if_neg (by decide), if_neg (by decide), if_neg (by decide)]
  · refine ⟨questionLabel ++ ": Boolean questions should have true/false or yes/no answers",
      ?_, Or.inr (Or.inr rfl)⟩
    simp only [validateBoolQuestion]
    rw [if_neg (by decide), if_neg (by decide), if_pos (by decide)]

/-- C5 (amended): a UNIQUE question with at least one answer whose
correct-answer count is not exactly 1 fails with an
InvalidUniqueQuestion message; a UNIQUE question with exactly 1 correct
answer and at least 2 answers passes. -/
theorem validateQuestion_unique_spec (q : CreateQuestionDto) (i : Nat) :
    (q.type = QuestionType.UNIQUE → q.answers ≠ [] →
      (q.answers.filter (fun a => a.correct)).length ≠ 1 →
      ∃ msg, validateQuestion q i = Except.error msg ∧ isUniqueError (qLabel i) msg)
    ∧ (q.type = QuestionType.UNIQUE →
      (q.answers.filter (fun a => a.correct)).length = 1 →
      2 ≤ q.answers.length →
      validateQuestion q i = Except.ok ()) := by
  constructor
  · intro ht hne hc
    have hlen : q.answers.length ≠ 0 := by
      simpa [List.length_eq_zero] using hne
    rw [validateQuestion, if_neg hlen, ht]
    by_cases h2 : q.answers.length < 2
    · exact ⟨_, by rw [validateUniqueQuestion, if_pos h2], Or.inl rfl⟩
    · refine ⟨_, ?_, Or.inr rfl⟩
      rw [validateUniqueQuestion, if_neg h2]
      simp only [if_pos hc]
  · intro ht hc h2
    have hlen : q.answers.length ≠ 0 := by omega
    rw [validateQuestion, if_neg hlen, ht, validateUniqueQuestion,
      if_neg (by omega)]
    simp only [hc, if_neg (by omega : ¬ (1 : Nat) ≠ 1)]

/-- C5 counterexample: a UNIQUE question with zero answers has a
correct-answer count different from 1, yet its validation fails with
the empty-answers message, which is not an InvalidUniqueQuestion
message. -/
theorem validateQuestion_unique_ce :
    (⟨QuestionType.UNIQUE, []⟩ : CreateQuestionDto).type = QuestionType.UNIQUE ∧
    ((⟨QuestionType.UNIQUE, []⟩ : CreateQuestionDto).answers.filter
      (fun a => a.correct)).length ≠ 1 ∧
    validateQuestion ⟨QuestionType.UNIQUE, []⟩ 0 =
      Except.error "Question 1: Must have at least one answer" ∧
    ¬ isUniqueError (qLabel 0) "Question 1: Must have at least one answer" := by
  refine ⟨rfl, by decide, by decide, by decide⟩

def qUok : CreateQuestionDto := ⟨QuestionType.UNIQUE, [⟨"a", true⟩, ⟨"b", false⟩]⟩

def qTbad : CreateQuestionDto := ⟨QuestionType.TEXT, [⟨"ans", false⟩]⟩

def quizW : CreateQuizDto := ⟨[qUok, qTbad, qUok]⟩

theorem validateQuiz_fail_fast_witness :
    quizW.questions[1]? = some qTbad ∧
    validateQuestion qTbad 1 =
      Except.error "Question 2: Text question answer must be marked as correct" ∧
    validateQuiz quizW =
      Except.error "Question 2: Text question answer must be marked as correct" := by
  refine ⟨by decide, by decide, ?_⟩
  refine (validateQuiz_fail_fast quizW).2.2.1 1 qTbad _ (by decide) (by decide) ?_
  intro j p hj hp
  have hj0 : j = 0 := by omega
  subst hj0
  have hp' : p = qUok := by
    simp only [quizW, List.getElem?_cons_zero, Option.some.injEq] at hp
    exact hp.symm
  subst hp'
  decide

def qBool3 : CreateQuestionDto :=
  ⟨QuestionType.BOOL, [⟨"true", true⟩, ⟨"false", false⟩, ⟨"maybe", false⟩]⟩

theorem validateBoolQuestion_spec_witness :
    validateBoolQuestion qBool3 "Question 1" =
      Except.error "Question 1: Boolean questions must have exactly 2 answers (true/false)" ∧
    isBoolError "Question 1"
      "Question 1: Boolean questions must have exactly 2 answers (true/false)" :=
  ⟨by decide, (validateBoolQuestion_spec qBool3 "Question 1").2.1 _ (by decide)⟩

def qU2 : CreateQuestionDto := ⟨QuestionType.UNIQUE, [⟨"a", true⟩, ⟨"b", true⟩]⟩

theorem validateQuestion_unique_spec_witness :
    (∃ msg, validateQuestion qU2 0 = Except.error msg ∧ isUniqueError (qLabel 0) msg) ∧
    validateQuestion qUok 0 = Except.ok () :=
  ⟨(validateQuestion_unique_spec qU2 0).1 rfl (by decide) (by decide),
   (validateQuestion_unique_spec qUok 0).2 rfl (by decide) (by decide)⟩

/-- A user, loaded as the `user` relation of an enrollment. -/
structure User where
  id : String
deriving DecidableEq

/-- An enrollment with its `user` relation. -/
structure Enrollment where
  id : String
  user : User
deriving DecidableEq

/-- A lesson (id and title, the fields the gate reads). -/
structure Lesson where
  id : String
  title : String
deriving DecidableEq

/-- A quiz row: id, owning lesson, and title. -/
structure Quiz where
  id : String
  lesson_id : String
  title : String
deriving DecidableEq

/-- A quiz attempt row: user, quiz, and the `passed` flag. -/
structure QuizAttempt where
  user_id : String
  quiz_id : String
  passed : Bool
deriving DecidableEq

/-- The progress status enum of `course-progress.entity.ts`
(per the spec: NOT_STARTED, IN_PROGRESS, COMPLETED). -/
inductive ProgressStatus where
  | NOT_STARTED
  | IN_PROGRESS
  | COMPLETED
deriving DecidableEq

/-- A CourseProgress row with its `enrollment` and `lesson` relations. -/
structure CourseProgress where
  enrollment : Enrollment
  lesson : Lesson
  status : ProgressStatus
deriving DecidableEq

/-- The request DTO of `updateProgress`. -/
structure UpdateProgressDto where
  enrollmentId : String
  lessonId : String
  status : ProgressStatus
deriving DecidableEq

/-- The response DTO built by `responseToDto`. -/
structure CourseProgressResponseDto where
  enrollmentId : String
  lessonId : String
  status : ProgressStatus
  lessonTitle : String
deriving DecidableEq

/-- The response DTO of `getCompletionRate`; `completionRate` is the
integer produced by `Math.round`. -/
structure CompletionRateResponseDto where
  enrollmentId : String
  completed : Nat
  total : Nat
  completionRate : ℤ
deriving DecidableEq

/-- The errors `updateProgress` can throw: `NotFoundException` or
`BadRequestException`, each carrying its message. -/
inductive ProgressError where
  | notFound (msg : String)
  | badRequest (msg : String)
deriving DecidableEq

/-- The state of the five repositories the service injects. -/
structure Db where
  enrollments : List Enrollment
  lessons : List Lesson
  quizzes : List Quiz
  attempts : List QuizAttempt
  progresses : List CourseProgress
deriving DecidableEq

/-- `responseToDto`. -/
def responseToDto (progress : CourseProgress) : CourseProgressResponseDto :=
  { enrollmentId := progress.enrollment.id
  , lessonId := progress.lesson.id
  , status := progress.status
  , lessonTitle := progress.lesson.title }

/-- The message of the `BadRequestException` thrown by
`checkQuizRequirements`. -/
def quizUnmetMsg (title : String) : String :=
  s!"Cannot complete lesson. You must pass the quiz \"{title}\" first."

/-- The `for (const quiz of quizzes)` loop of `checkQuizRequirements`:
look up the attempt for each quiz in order and throw on the first quiz
with no attempt or a non-passed attempt. -/
def checkQuizLoop (db : Db) (userId : String) : List Quiz → Except String Unit
  | [] => Except.ok ()
  | quiz :: rest =>
    match db.attempts.find? (fun a => a.user_id == userId && a.quiz_id == quiz.id) with
    | none => Except.error (quizUnmetMsg quiz.title)
    | some attempt =>
      if !attempt.passed then Except.error (quizUnmetMsg quiz.title)
      else checkQuizLoop db userId rest

/-- `checkQuizRequirements`: load the quizzes of the lesson, return if
there are none, otherwise run the per-quiz loop. -/
def checkQuizRequirements (db : Db) (userId lessonId : String) : Except String Unit :=
  let quizzes := db.quizzes.filter (fun q => q.lesson_id == lessonId)
  if quizzes.length = 0 then
    Except.ok ()
  else
    checkQuizLoop db userId quizzes

/-- The where-clause of the progress `findOne` in `updateProgress`
(and of the save that follows it): match on enrollment id and lesson
id. -/
def pairPred (enrollmentId lessonId : String) (p : CourseProgress) : Bool :=
  p.enrollment.id == enrollmentId && p.lesson.id == lessonId

/-- The effect of `progressRepo.save` on a row found by `findOne`: the
first row matching the (enrollment, lesson) pair has its status
overwritten, the rest of the table is untouched. -/
def setStatusFirst (l : List CourseProgress) (enrollmentId lessonId : String)
    (st : ProgressStatus) : List CourseProgress :=
  match l with
  | [] => []
  | p :: rest =>
    if pairPred enrollmentId lessonId p then { p with status := st } :: rest
    else p :: setStatusFirst rest enrollmentId lessonId st

/-- `updateProgress`: resolve the enrollment (with user) and the
lesson, run the quiz gate when the requested status is COMPLETED, then
find-then-save the progress row.  The returned `Db` is the repository
state after the call; every thrown exception leaves it unchanged
because it is raised before the save. -/
def updateProgress (db : Db) (dto : UpdateProgressDto) :
    Except ProgressError CourseProgressResponseDto × Db :=
  match db.enrollments.find? (fun e => e.id == dto.enrollmentId) with
  | none => (Except.error (ProgressError.notFound "Enrollment not found"), db)
  | some enrollment =>
    match db.lessons.find? (fun l => l.id == dto.lessonId) with
    | none => (Except.error (ProgressError.notFound "Lesson not found"), db)
    | some lesson =>
      match (if dto.status = ProgressStatus.COMPLETED then
               checkQuizRequirements db enrollment.user.id dto.lessonId
             else Except.ok ()) with
      | Except.error msg => (Except.error (ProgressError.badRequest msg), db)
      | Except.ok _ =>
        match db.progresses.find? (pairPred dto.enrollmentId dto.lessonId) with
        | none =>
          let progress : CourseProgress :=
            { enrollment := enrollment, lesson := lesson, status := dto.status }
          (Except.ok (responseToDto progress),
           { db with progresses := db.progresses ++ [progress] })
        | some progress =>
          let updated : CourseProgress := { progress with status := dto.status }
          (Except.ok (responseToDto updated),
           { db with progresses :=
               setStatusFirst db.progresses dto.enrollmentId dto.lessonId dto.status })

/-- The `total` count of `getCompletionRate`: progress rows of the
enrollment. -/
def totalFor (db : Db) (enrollmentId : String) : Nat :=
  (db.progresses.filter (fun p => p.enrollment.id == enrollmentId)).length

/-- The `completed` count of `getCompletionRate`: COMPLETED progress
rows of the enrollment. -/
def completedFor (db : Db) (enrollmentId : String) : Nat :=
  (db.progresses.filter (fun p =>
    p.enrollment.id == enrollmentId && p.status == ProgressStatus.COMPLETED)).length

/-- JavaScript's `Math.round` on a non-negative rational: floor of
x + 1/2 (round half away from zero coincides with half up here). -/
def mathRound (x : ℚ) : ℤ := ⌊x + 1/2⌋

/-- `getCompletionRate`: all-zero result when the enrollment has no
progress rows, otherwise the rounded percentage. -/
def getCompletionRate (db : Db) (enrollmentId : String) : CompletionRateResponseDto :=
  let total := totalFor db enrollmentId
  if total = 0 then
    { enrollmentId := enrollmentId, completed := 0, total := 0, completionRate := 0 }
  else
    let completed := completedFor db enrollmentId
    { enrollmentId := enrollmentId, completed := completed, total := total
    , completionRate := mathRound (((completed : ℚ) / (total : ℚ)) * 100) }

/-- The condition under which the quiz loop rejects a quiz: no attempt
by the user for it, or an attempt with `passed = false`. -/
def unmetQuiz (db : Db) (userId : String) (quiz : Quiz) : Bool :=
  match db.attempts.find? (fun a => a.user_id == userId && a.quiz_id == quiz.id) with
  | none => true
  | some attempt => !attempt.passed

/-- The quizzes the gate loads for a lesson, in store order. -/
def quizzesFor (db : Db) (lessonId : String) : List Quiz :=
  db.quizzes.filter (fun q => q.lesson_id == lessonId)

/-- The §3 uniqueness invariant: at most one CourseProgress row per
(enrollment, lesson) pair. -/
def UniqueProgress (db : Db) : Prop :=
  ∀ eid lid, (db.progresses.filter (pairPred eid lid)).length ≤ 1

theorem checkQuizLoop_eq_find (db : Db) (uid : String) (qs : List Quiz) :
    checkQuizLoop db uid qs =
      match qs.find? (unmetQuiz db uid) with
      | some quiz => Except.error (quizUnmetMsg quiz.title)
      | none => Except.ok () := by
  induction qs with
  | nil => rfl
  | cons quiz rest ih =>
    rw [checkQuizLoop]
    cases hA : db.attempts.find? (fun a => a.user_id == uid && a.quiz_id == quiz.id) with
    | none =>
      have hu : unmetQuiz db uid quiz = true := by
        simp only [unmetQuiz, hA]
      rw [List.find?_cons_of_pos _ hu]
    | some attempt =>
      cases hp : attempt.passed with
      | true =>
        have hu : unmetQuiz db uid quiz = false := by
          simp only [unmetQuiz, hA, hp, Bool.not_true]
        rw [List.find?_cons_of_neg _ (by simp [hu])]
        simpa [hp] using ih
      | false =>
        have hu : unmetQuiz db uid quiz = true := by
          simp only [unmetQuiz, hA, hp, Bool.not_false]
        rw [List.find?_cons_of_pos _ hu]
        simp [hp]

theorem checkQuizRequirements_eq_find (db : Db) (uid lessonId : String) :
    checkQuizRequirements db uid lessonId =
      match (quizzesFor db lessonId).find? (unmetQuiz db uid) with
      | some quiz => Except.error (quizUnmetMsg quiz.title)
      | none => Except.ok () := by
  simp only [checkQuizRequirements, quizzesFor]
  by_cases h : (db.quizzes.filter (fun q => q.lesson_id == lessonId)).length = 0
  · rw [if_pos h]
    rw [List.length_eq_zero] at h
    rw [h]
    rfl
  · rw [if_neg h, checkQuizLoop_eq_find]

theorem checkQuizLoop_congr (db db' : Db) (uid : String)
    (ha : db'.attempts = db.attempts) (qs : List Quiz) :
    checkQuizLoop db' uid qs = checkQuizLoop db uid qs := by
  induction qs with
  | nil => rfl
  | cons quiz rest ih =>
    rw [checkQuizLoop, checkQuizLoop, ha]
    cases db.attempts.find? (fun a => a.user_id == uid && a.quiz_id == quiz.id) with
    | none => rfl
    | some attempt =>
      by_cases hp : attempt.passed = true
      · simp [hp, ih]
      · simp [hp]

theorem checkQuizRequirements_congr (db db' : Db) (uid lid : String)
    (hq : db'.quizzes = db.quizzes) (ha : db'.attempts = db.attempts) :
    checkQuizRequirements db' uid lid = checkQuizRequirements db uid lid := by
  simp only [checkQuizRequirements, hq]
  by_cases h : (db.quizzes.filter (fun q => q.lesson_id == lid)).length = 0
  · rw [if_pos h, if_pos h]
  · rw [if_neg h, if_neg h, checkQuizLoop_congr db db' uid ha]

theorem updateProgress_stores (db : Db) (dto : UpdateProgressDto) :
    (updateProgress db dto).2.enrollments = db.enrollments ∧
    (updateProgress db dto).2.lessons = db.lessons ∧
    (updateProgress db dto).2.quizzes = db.quizzes ∧
    (updateProgress db dto).2.attempts = db.attempts := by
  cases hE : db.enrollments.find? (fun e => e.id == dto.enrollmentId) with
  | none => simp [updateProgress, hE]
  | some enrollment =>
    cases hL : db.lessons.find? (fun l => l.id == dto.lessonId) with
    | none => simp [updateProgress, hE, hL]
    | some lesson =>
      cases hC : (if dto.status = ProgressStatus.COMPLETED then
          checkQuizRequirements db enrollment.user.id dto.lessonId
        else Except.ok ()) with
      | error msg => simp [updateProgress, hE, hL, hC]
      | ok u =>
        cases hP : db.progresses.find? (pairPred dto.enrollmentId dto.lessonId) with
        | none => simp [updateProgress, hE, hL, hC, hP]
        | some progress => simp [updateProgress, hE, hL, hC, hP]

theorem updateProgress_error_state (db : Db) (dto : UpdateProgressDto)
    (e : ProgressError) (h : (updateProgress db dto).1 = Except.error e) :
    (updateProgress db dto).2 = db := by
  cases hE : db.enrollments.find? (fun e => e.id == dto.enrollmentId) with
  | none => simp [updateProgress, hE]
  | some enrollment =>
    cases hL : db.lessons.find? (fun l => l.id == dto.lessonId) with
    | none => simp [updateProgress, hE, hL]
    | some lesson =>
      cases hC : (if dto.status = ProgressStatus.COMPLETED then
          checkQuizRequirements db enrollment.user.id dto.lessonId
        else Except.ok ()) with
      | error msg => simp [updateProgress, hE, hL, hC]
      | ok u =>
        cases hP : db.progresses.find? (pairPred dto.enrollmentId dto.lessonId) with
        | none => simp [updateProgress, hE, hL, hC, hP] at h
        | some progress => simp [updateProgress, hE, hL, hC, hP] at h

theorem setStatusFirst_length (l : List CourseProgress) (eid lid : String)
    (st : ProgressStatus) : (setStatusFirst l eid lid st).length = l.length := by
  induction l with
  | nil => rfl
  | cons p rest ih =>
    rw [setStatusFirst]
    by_cases h : pairPred eid lid p = true
    · rw [if_pos h]
      simp
    · rw [if_neg h]
      simp [ih]

theorem pairPred_set_status (eid lid : String) (st : ProgressStatus)
    (p : CourseProgress) :
    pairPred eid lid { p with status := st } = pairPred eid lid p := rfl

theorem setStatusFirst_filter_pair (l : List CourseProgress) (eid lid : String)
    (st : ProgressStatus) :
    (setStatusFirst l eid lid st).filter (pairPred eid lid) =
      match l.filter (pairPred eid lid) with
      | [] => []
      | p :: rest => { p with status := st } :: rest := by
  induction l with
  | nil => rfl
  | cons p rest ih =>
    rw [setStatusFirst]
    by_cases h : pairPred eid lid p = true
    · rw [if_pos h]
      rw [List.filter_cons_of_pos (by rw [pairPred_set_status]; exact h),
        List.filter_cons_of_pos h]
    · rw [if_neg h]
      rw [List.filter_cons_of_neg (by simpa using h),
        List.filter_cons_of_neg (by simpa using h)]
      exact ih

theorem setStatusFirst_filter_not (l : List CourseProgress) (eid lid : String)
    (st : ProgressStatus) :
    (setStatusFirst l eid lid st).filter (fun p => !(pairPred eid lid p)) =
      l.filter (fun p => !(pairPred eid lid p)) := by
  induction l with
  | nil => rfl
  | cons p rest ih =>
    rw [setStatusFirst]
    by_cases h : pairPred eid lid p = true
    · rw [if_pos h]
      rw [List.filter_cons_of_neg (by simp [pairPred_set_status, h]),
        List.filter_cons_of_neg (by simp [h])]
    · rw [if_neg h]
      have h' : pairPred eid lid p = false := by
        simpa using h
      rw [List.filter_cons_of_pos (by simp [h']),
        List.filter_cons_of_pos (by simp [h'])]
      rw [ih]

theorem setStatusFirst_filter_blind_length (l : List CourseProgress)
    (eid lid e2 l2 : String) (st : ProgressStatus) :
    ((setStatusFirst l eid lid st).filter (pairPred e2 l2)).length =
      (l.filter (pairPred e2 l2)).length := by
  induction l with
  | nil => rfl
  | cons p rest ih =>
    rw [setStatusFirst]
    by_cases h : pairPred eid lid p = true
    · rw [if_pos h]
      by_cases h2 : pairPred e2 l2 p = true
      · rw [List.filter_cons_of_pos (by rw [pairPred_set_status]; exact h2),
          List.filter_cons_of_pos h2]
        simp
      · rw [List.filter_cons_of_neg (by rw [pairPred_set_status]; exact h2),
          List.filter_cons_of_neg h2]
    · rw [if_neg h]
      by_cases h2 : pairPred e2 l2 p = true
      · rw [List.filter_cons_of_pos h2, List.filter_cons_of_pos h2]
        simp [ih]
      · rw [List.filter_cons_of_neg h2, List.filter_cons_of_neg h2]
        exact ih

theorem updateProgress_ok_of (db : Db) (dto : UpdateProgressDto)
    (enrollment : Enrollment) (lesson : Lesson)
    (hE : db.enrollments.find? (fun e => e.id == dto.enrollmentId) = some enrollment)
    (hL : db.lessons.find? (fun l => l.id == dto.lessonId) = some lesson)
    (hQ : dto.status = ProgressStatus.COMPLETED →
      checkQuizRequirements db enrollment.user.id dto.lessonId = Except.ok ()) :
    ∃ r, (updateProgress db dto).1 = Except.ok r ∧ r.status = dto.status := by
  have hC : (if dto.status = ProgressStatus.COMPLETED then
      checkQuizRequirements db enrollment.user.id dto.lessonId
    else Except.ok ()) = Except.ok () := by
    by_cases h : dto.status = ProgressStatus.COMPLETED
    · rw [if_pos h]
      exact hQ h
    · rw [if_neg h]
  cases hP : db.progresses.find? (pairPred dto.enrollmentId dto.lessonId) with
  | none =>
    exact ⟨responseToDto ⟨enrollment, lesson, dto.status⟩,
      by simp [updateProgress, hE, hL, hC, hP], rfl⟩
  | some progress =>
    exact ⟨responseToDto { progress with status := dto.status },
      by simp [updateProgress, hE, hL, hC, hP], rfl⟩

theorem updateProgress_ok_shape (db : Db) (dto : UpdateProgressDto)
    (r : CourseProgressResponseDto) (h : (updateProgress db dto).1 = Except.ok r) :
    ∃ enrollment lesson,
      db.enrollments.find? (fun e => e.id == dto.enrollmentId) = some enrollment ∧
      db.lessons.find? (fun l => l.id == dto.lessonId) = some lesson ∧
      (dto.status = ProgressStatus.COMPLETED →
        checkQuizRequirements db enrollment.user.id dto.lessonId = Except.ok ()) ∧
      r.status = dto.status ∧
      ((db.progresses.find? (pairPred dto.enrollmentId dto.lessonId) = none ∧
        (updateProgress db dto).2.progresses =
          db.progresses ++ [⟨enrollment, lesson, dto.status⟩]) ∨
       ((∃ progress,
          db.progresses.find? (pairPred dto.enrollmentId dto.lessonId) = some progress) ∧
        (updateProgress db dto).2.progresses =
          setStatusFirst db.progresses dto.enrollmentId dto.lessonId dto.status)) := by
  cases hE : db.enrollments.find? (fun e => e.id == dto.enrollmentId) with
  | none => simp [updateProgress, hE] at h
  | some enrollment =>
    cases hL : db.lessons.find? (fun l => l.id == dto.lessonId) with
    | none => simp [updateProgress, hE, hL] at h
    | some lesson =>
      cases hC : (if dto.status = ProgressStatus.COMPLETED then
          checkQuizRequirements db enrollment.user.id dto.lessonId
        else Except.ok ()) with
      | error msg => simp [updateProgress, hE, hL, hC] at h
      | ok u =>
        cases u
        have hQ : dto.status = ProgressStatus.COMPLETED →
            checkQuizRequirements db enrollment.user.id dto.lessonId = Except.ok () := by
          intro hst
          rw [if_pos hst] at hC
          exact hC
        refine ⟨enrollment, lesson, rfl, rfl, hQ, ?_, ?_⟩
        · cases hP : db.progresses.find? (pairPred dto.enrollmentId dto.lessonId) with
          | none =>
            simp only [updateProgress, hE, hL, hC, hP] at h
            cases h
            rfl
          | some progress =>
            simp only [updateProgress, hE, hL, hC, hP] at h
            cases h
            rfl
        · cases hP : db.progresses.find? (pairPred dto.enrollmentId dto.lessonId) with
          | none =>
            refine Or.inl ⟨rfl, ?_⟩
            simp [updateProgress, hE, hL, hC, hP]
          | some progress =>
            refine Or.inr ⟨⟨progress, rfl⟩, ?_⟩
            simp [updateProgress, hE, hL, hC, hP]

theorem updateProgress_unique (db : Db) (dto : UpdateProgressDto)
    (hInv : UniqueProgress db) : UniqueProgress (updateProgress db dto).2 := by
  cases hR : (updateProgress db dto).1 with
  | error e =>
    rw [updateProgress_error_state db dto e hR]
    exact hInv
  | ok r =>
    obtain ⟨enrollment, lesson, hE, hL, _, _, hcase⟩ :=
      updateProgress_ok_shape db dto r hR
    intro e2 l2
    cases hcase with
    | inl hc =>
      obtain ⟨hP, hprog⟩ := hc
      rw [hprog, List.filter_append]
      by_cases hpp : pairPred e2 l2 ⟨enrollment, lesson, dto.status⟩ = true
      · have hbe := List.find?_some hE
        have hbl := List.find?_some hL
        have hEid : enrollment.id = dto.enrollmentId := eq_of_beq hbe
        have hLid : lesson.id = dto.lessonId := eq_of_beq hbl
        have hpp' : enrollment.id = e2 ∧ lesson.id = l2 := by
          simpa [pairPred] using hpp
        have he2 : e2 = dto.enrollmentId := hpp'.1.symm.trans hEid
        have hl2 : l2 = dto.lessonId := hpp'.2.symm.trans hLid
        subst he2 hl2
        have hnil : db.progresses.filter (pairPred dto.enrollmentId dto.lessonId) = [] :=
          List.filter_eq_nil_iff.mpr (List.find?_eq_none.mp hP)
        rw [hnil, List.nil_append, List.filter_cons_of_pos hpp]
        simp
      · rw [List.filter_cons_of_neg hpp]
        simpa using hInv e2 l2
    | inr hc =>
      obtain ⟨_, hprog⟩ := hc
      rw [hprog, setStatusFirst_filter_blind_length]
      exact hInv e2 l2

theorem updateProgress_ok_pair (db : Db) (dto : UpdateProgressDto)
    (r : CourseProgressResponseDto) (hInv : UniqueProgress db)
    (h : (updateProgress db dto).1 = Except.ok r) :
    ((updateProgress db dto).2.progresses.filter
      (pairPred dto.enrollmentId dto.lessonId)).length = 1 ∧
    ∀ p ∈ (updateProgress db dto).2.progresses.filter
      (pairPred dto.enrollmentId dto.lessonId), p.status = dto.status := by
  obtain ⟨enrollment, lesson, hE, hL, _, _, hcase⟩ :=
    updateProgress_ok_shape db dto r h
  have hbe := List.find?_some hE
  have hbl := List.find?_some hL
  cases hcase with
  | inl hc =>
    obtain ⟨hP, hprog⟩ := hc
    have hnil : db.progresses.filter (pairPred dto.enrollmentId dto.lessonId) = [] :=
      List.filter_eq_nil_iff.mpr (List.find?_eq_none.mp hP)
    have hrow : pairPred dto.enrollmentId dto.lessonId
        ⟨enrollment, lesson, dto.status⟩ = true := by
      simp [pairPred, eq_of_beq hbe, eq_of_beq hbl]
    rw [hprog, List.filter_append, hnil, List.nil_append,
      List.filter_cons_of_pos hrow]
    refine ⟨by simp, ?_⟩
    intro p hp
    have hp' : p = ⟨enrollment, lesson, dto.status⟩ := by
      simpa using hp
    rw [hp']
  | inr hc =>
    obtain ⟨⟨progress, hP⟩, hprog⟩ := hc
    have hmem : progress ∈ db.progresses.filter (pairPred dto.enrollmentId dto.lessonId) :=
      List.mem_filter.mpr ⟨List.mem_of_find?_eq_some hP, List.find?_some hP⟩
    have hle := hInv dto.enrollmentId dto.lessonId
    rw [hprog, setStatusFirst_filter_pair]
    cases hfil : db.progresses.filter (pairPred dto.enrollmentId dto.lessonId) with
    | nil =>
      rw [hfil] at hmem
      exact absurd hmem (by simp)
    | cons p0 rest =>
      rw [hfil] at hle
      have hrest : rest = [] := by
        simp only [List.length_cons] at hle
        have h0 : rest.length = 0 := by omega
        exact List.length_eq_zero.mp h0
      subst hrest
      refine ⟨by simp, ?_⟩
      intro p hp
      have hp' : p = { p0 with status := dto.status } := by
        simpa using hp
      rw [hp']

/-- C9: `updateProgress` fails with EnrollmentNotFound when the
enrollment id resolves to nothing — regardless of the lesson store, so
the enrollment lookup is first — and with LessonNotFound when the
enrollment exists but the lesson id resolves to nothing. -/
theorem updateProgress_not_found (db : Db) (dto : UpdateProgressDto) :
    (db.enrollments.find? (fun e => e.id == dto.enrollmentId) = none →
      updateProgress db dto =
        (Except.error (ProgressError.notFound "Enrollment not found"), db))
    ∧ (∀ enrollment,
        db.enrollments.find? (fun e => e.id == dto.enrollmentId) = some enrollment →
        db.lessons.find? (fun l => l.id == dto.lessonId) = none →
        updateProgress db dto =
          (Except.error (ProgressError.notFound "Lesson not found"), db)) := by
  constructor
  · intro hE
    simp [updateProgress, hE]
  · intro enrollment hE hL
    simp [updateProgress, hE, hL]

/-- C10: `updateProgress` is atomic on failure — every error is thrown
before the find-then-save write, so a failed call leaves the repository
state unchanged. -/
theorem updateProgress_atomic (db : Db) (dto : UpdateProgressDto)
    (e : ProgressError) (h : (updateProgress db dto).1 = Except.error e) :
    (updateProgress db dto).2 = db :=
  updateProgress_error_state db dto e h

/-- C6: when the enrollment and lesson exist and the lesson has zero
quizzes, `updateProgress` to COMPLETED always succeeds, whatever the
attempt store contains. -/
theorem updateProgress_zero_quizzes (db : Db) (dto : UpdateProgressDto)
    (enrollment : Enrollment) (lesson : Lesson)
    (hE : db.enrollments.find? (fun e => e.id == dto.enrollmentId) = some enrollment)
    (hL : db.lessons.find? (fun l => l.id == dto.lessonId) = some lesson)
    (hq : quizzesFor db dto.lessonId = [])
    (hst : dto.status = ProgressStatus.COMPLETED) :
    ∃ r, (updateProgress db dto).1 = Except.ok r ∧
      r.status = ProgressStatus.COMPLETED := by
  have hok : checkQuizRequirements db enrollment.user.id dto.lessonId = Except.ok () := by
    rw [checkQuizRequirements_eq_find, hq]
    rfl
  obtain ⟨r, h1, h2⟩ := updateProgress_ok_of db dto enrollment lesson hE hL (fun _ => hok)
  exact ⟨r, h1, hst ▸ h2⟩

/-- C1: with the enrollment and lesson resolved, `updateProgress`
fails with a QuizRequirementUnmet (BadRequest) error iff the requested
status is COMPLETED and some quiz of the lesson is unmet for the
enrollment's user; the error names the title of the first unmet quiz in
store order, and non-COMPLETED statuses never produce such an error. -/
theorem updateProgress_quiz_gate (db : Db) (dto : UpdateProgressDto)
    (enrollment : Enrollment) (lesson : Lesson)
    (hE : db.enrollments.find? (fun e => e.id == dto.enrollmentId) = some enrollment)
    (hL : db.lessons.find? (fun l => l.id == dto.lessonId) = some lesson) :
    ((∃ msg, (updateProgress db dto).1 = Except.error (ProgressError.badRequest msg)) ↔
      (dto.status = ProgressStatus.COMPLETED ∧
        ∃ q ∈ quizzesFor db dto.lessonId, unmetQuiz db enrollment.user.id q = true))
    ∧ (∀ q, dto.status = ProgressStatus.COMPLETED →
        (quizzesFor db dto.lessonId).find? (unmetQuiz db enrollment.user.id) = some q →
        (updateProgress db dto).1 =
          Except.error (ProgressError.badRequest (quizUnmetMsg q.title))) := by
  by_cases hst : dto.status = ProgressStatus.COMPLETED
  · cases hF : (quizzesFor db dto.lessonId).find? (unmetQuiz db enrollment.user.id) with
    | some quiz =>
      have herr : checkQuizRequirements db enrollment.user.id dto.lessonId =
          Except.error (quizUnmetMsg quiz.title) := by
        rw [checkQuizRequirements_eq_find, hF]
      have hC : (if dto.status = ProgressStatus.COMPLETED then
          checkQuizRequirements db enrollment.user.id dto.lessonId
        else Except.ok ()) = Except.error (quizUnmetMsg quiz.title) := by
        rw [if_pos hst, herr]
      have hupd : (updateProgress db dto).1 =
          Except.error (ProgressError.badRequest (quizUnmetMsg quiz.title)) := by
        simp [updateProgress, hE, hL, hC]
      constructor
      · constructor
        · intro _
          exact ⟨hst, quiz, List.mem_of_find?_eq_some hF, List.find?_some hF⟩
        · intro _
          exact ⟨quizUnmetMsg quiz.title, hupd⟩
      · intro q _ hFq
        cases hFq
        exact hupd
    | none =>
      have hok : checkQuizRequirements db enrollment.user.id dto.lessonId =
          Except.ok () := by
        rw [checkQuizRequirements_eq_find, hF]
      obtain ⟨r, hr, _⟩ := updateProgress_ok_of db dto enrollment lesson hE hL
        (fun _ => hok)
      constructor
      · constructor
        · rintro ⟨msg, hmsg⟩
          rw [hr] at hmsg
          exact absurd hmsg (by simp)
        · rintro ⟨_, q, hqmem, hqunmet⟩
          exact absurd hqunmet (List.find?_eq_none.mp hF q hqmem)
      · intro q _ hFq
        exact absurd hFq (by simp)
  · obtain ⟨r, hr, _⟩ := updateProgress_ok_of db dto enrollment lesson hE hL
      (fun h => absurd h hst)
    constructor
    · constructor
      · rintro ⟨msg, hmsg⟩
        rw [hr] at hmsg
        exact absurd hmsg (by simp)
      · rintro ⟨h1, _⟩
        exact absurd h1 hst
    · intro q h1
      exact absurd h1 hst

/-- C3: under the per-pair uniqueness invariant, every `updateProgress`
call preserves the invariant; a successful call leaves exactly one row
for the requested pair, carrying the requested status, leaves all other
rows untouched, appends exactly one row when the pair was absent, and
keeps the table length when it was present; a failed call leaves the
state unchanged. -/
theorem updateProgress_row_discipline (db : Db) (dto : UpdateProgressDto)
    (hInv : UniqueProgress db) :
    UniqueProgress (updateProgress db dto).2
    ∧ (∀ e, (updateProgress db dto).1 = Except.error e →
        (updateProgress db dto).2 = db)
    ∧ (∀ r, (updateProgress db dto).1 = Except.ok r →
        ((updateProgress db dto).2.progresses.filter
          (pairPred dto.enrollmentId dto.lessonId)).length = 1 ∧
        (∀ p ∈ (updateProgress db dto).2.progresses.filter
          (pairPred dto.enrollmentId dto.lessonId), p.status = dto.status) ∧
        (updateProgress db dto).2.progresses.filter
            (fun p => !(pairPred dto.enrollmentId dto.lessonId p)) =
          db.progresses.filter (fun p => !(pairPred dto.enrollmentId dto.lessonId p)) ∧
        (db.progresses.find? (pairPred dto.enrollmentId dto.lessonId) = none →
          (updateProgress db dto).2.progresses.length = db.progresses.length + 1) ∧
        (∀ progress,
          db.progresses.find? (pairPred dto.enrollmentId dto.lessonId) = some progress →
          (updateProgress db dto).2.progresses.length = db.progresses.length)) := by
  refine ⟨updateProgress_unique db dto hInv,
    fun e h => updateProgress_error_state db dto e h, ?_⟩
  intro r h
  obtain ⟨hlen1, hstat⟩ := updateProgress_ok_pair db dto r hInv h
  obtain ⟨enrollment, lesson, hE, hL, _, _, hcase⟩ :=
    updateProgress_ok_shape db dto r h
  refine ⟨hlen1, hstat, ?_, ?_, ?_⟩
  · cases hcase with
    | inl hc =>
      obtain ⟨hP, hprog⟩ := hc
      rw [hprog, List.filter_append]
      have hbe := List.find?_some hE
      have hbl := List.find?_some hL
      have hrow : pairPred dto.enrollmentId dto.lessonId
          ⟨enrollment, lesson, dto.status⟩ = true := by
        simp [pairPred, eq_of_beq hbe, eq_of_beq hbl]
      rw [List.filter_cons_of_neg (by simp [hrow])]
      simp
    | inr hc =>
      rw [hc.2, setStatusFirst_filter_not]
  · intro hP
    cases hcase with
    | inl hc =>
      rw [hc.2]
      simp
    | inr hc =>
      obtain ⟨⟨progress, hP'⟩, _⟩ := hc
      rw [hP] at hP'
      exact absurd hP' (by simp)
  · intro progress hP
    cases hcase with
    | inl hc =>
      rw [hc.1] at hP
      exact absurd hP (by simp)
    | inr hc =>
      rw [hc.2, setStatusFirst_length]

/-- C7: under the uniqueness invariant, repeating a successful
`updateProgress` call with the same DTO leaves exactly one row for the
pair after the second call, and the second call succeeds with the same
status as the first. -/
theorem updateProgress_idempotent (db : Db) (dto : UpdateProgressDto)
    (r₁ : CourseProgressResponseDto) (hInv : UniqueProgress db)
    (h1 : (updateProgress db dto).1 = Except.ok r₁) :
    (((updateProgress (updateProgress db dto).2 dto).2.progresses.filter
        (pairPred dto.enrollmentId dto.lessonId)).length = 1)
    ∧ ∃ r₂, (updateProgress (updateProgress db dto).2 dto).1 = Except.ok r₂ ∧
        r₂.status = r₁.status := by
  obtain ⟨enrollment, lesson, hE, hL, hQ, hrs, _⟩ :=
    updateProgress_ok_shape db dto r₁ h1
  obtain ⟨hsE, hsL, hsQ, hsA⟩ := updateProgress_stores db dto
  have hE' : (updateProgress db dto).2.enrollments.find?
      (fun e => e.id == dto.enrollmentId) = some enrollment := by
    rw [hsE]
    exact hE
  have hL' : (updateProgress db dto).2.lessons.find?
      (fun l => l.id == dto.lessonId) = some lesson := by
    rw [hsL]
    exact hL
  have hQ' : dto.status = ProgressStatus.COMPLETED →
      checkQuizRequirements (updateProgress db dto).2 enrollment.user.id
        dto.lessonId = Except.ok () := by
    intro hst
    rw [checkQuizRequirements_congr db (updateProgress db dto).2
      enrollment.user.id dto.lessonId hsQ hsA]
    exact hQ hst
  obtain ⟨r₂, hr₂, hst₂⟩ :=
    updateProgress_ok_of (updateProgress db dto).2 dto enrollment lesson hE' hL' hQ'
  have hInv' := updateProgress_unique db dto hInv
  obtain ⟨hlen, _⟩ := updateProgress_ok_pair (updateProgress db dto).2 dto r₂ hInv' hr₂
  exact ⟨hlen, r₂, hr₂, hst₂.trans hrs.symm⟩

/-- C8: `getCompletionRate` returns the all-zero result when the
enrollment has no progress rows (no division), otherwise the rounded
percentage round(100*completed/total); with 3 rows and 1 completed the
rate is 33. -/
theorem getCompletionRate_spec (db : Db) (eid : String) :
    (totalFor db eid = 0 →
      getCompletionRate db eid = ⟨eid, 0, 0, 0⟩)
    ∧ (totalFor db eid ≠ 0 →
      (getCompletionRate db eid).completionRate =
        mathRound (100 * (completedFor db eid : ℚ) / (totalFor db eid : ℚ)))
    ∧ (totalFor db eid = 3 → completedFor db eid = 1 →
      (getCompletionRate db eid).completionRate = 33) := by
  refine ⟨?_, ?_, ?_⟩
  · intro h
    simp [getCompletionRate, h]
  · intro h
    simp only [getCompletionRate, if_neg h]
    show mathRound (((completedFor db eid : ℚ) / (totalFor db eid : ℚ)) * 100) =
      mathRound (100 * (completedFor db eid : ℚ) / (totalFor db eid : ℚ))
    congr 1
    ring
  · intro h3 h1
    have hne : ¬ totalFor db eid = 0 := by
      rw [h3]
      decide
    simp only [getCompletionRate, if_neg hne]
    show mathRound (((completedFor db eid : ℚ) / (totalFor db eid : ℚ)) * 100) = 33
    rw [h1, h3]
    norm_num [mathRound]

def userA : User := ⟨"u1"⟩

def enrollA : Enrollment := ⟨"e1", userA⟩

def lessonA : Lesson := ⟨"l1", "Lesson One"⟩

def lessonB : Lesson := ⟨"l2", "Lesson Two"⟩

def lessonC : Lesson := ⟨"l3", "Lesson Three"⟩

def quizA : Quiz := ⟨"q1", "l1", "Quiz A"⟩

def quizB : Quiz := ⟨"q2", "l1", "Quiz B"⟩

def attemptA : QuizAttempt := ⟨"u1", "q1", true⟩

def dtoC : UpdateProgressDto := ⟨"e1", "l1", ProgressStatus.COMPLETED⟩

def dbQuiz : Db := ⟨[enrollA], [lessonA], [quizA, quizB], [attemptA], []⟩

def dbNoQuiz : Db := ⟨[enrollA], [lessonA], [], [attemptA], []⟩

def dbNoLesson : Db := ⟨[enrollA], [], [], [], []⟩

def dbEmpty : Db := ⟨[], [], [], [], []⟩

def dbRate : Db := ⟨[enrollA], [lessonA, lessonB, lessonC], [], [],
  [⟨enrollA, lessonA, ProgressStatus.COMPLETED⟩,
   ⟨enrollA, lessonB, ProgressStatus.IN_PROGRESS⟩,
   ⟨enrollA, lessonC, ProgressStatus.IN_PROGRESS⟩]⟩

theorem updateProgress_quiz_gate_witness :
    dbQuiz.enrollments.find? (fun e => e.id == dtoC.enrollmentId) = some enrollA ∧
    dbQuiz.lessons.find? (fun l => l.id == dtoC.lessonId) = some lessonA ∧
    (((∃ msg, (updateProgress dbQuiz dtoC).1 =
        Except.error (ProgressError.badRequest msg)) ↔
      (dtoC.status = ProgressStatus.COMPLETED ∧
        ∃ q ∈ quizzesFor dbQuiz dtoC.lessonId,
          unmetQuiz dbQuiz enrollA.user.id q = true))
    ∧ (∀ q, dtoC.status = ProgressStatus.COMPLETED →
        (quizzesFor dbQuiz dtoC.lessonId).find?
          (unmetQuiz dbQuiz enrollA.user.id) = some q →
        (updateProgress dbQuiz dtoC).1 =
          Except.error (ProgressError.badRequest (quizUnmetMsg q.title)))) :=
  ⟨by decide, by decide,
   updateProgress_quiz_gate dbQuiz dtoC enrollA lessonA (by decide) (by decide)⟩

theorem updateProgress_zero_quizzes_witness :
    quizzesFor dbNoQuiz dtoC.lessonId = [] ∧
    (∃ r, (updateProgress dbNoQuiz dtoC).1 = Except.ok r ∧
      r.status = ProgressStatus.COMPLETED) :=
  ⟨by decide,
   updateProgress_zero_quizzes dbNoQuiz dtoC enrollA lessonA
     (by decide) (by decide) (by decide) rfl⟩

theorem updateProgress_not_found_witness :
    updateProgress dbEmpty dtoC =
      (Except.error (ProgressError.notFound "Enrollment not found"), dbEmpty) ∧
    updateProgress dbNoLesson dtoC =
      (Except.error (ProgressError.notFound "Lesson not found"), dbNoLesson) :=
  ⟨(updateProgress_not_found dbEmpty dtoC).1 (by decide),
   (updateProgress_not_found dbNoLesson dtoC).2 enrollA (by decide) (by decide)⟩

theorem updateProgress_atomic_witness :
    (updateProgress dbEmpty dtoC).1 =
      Except.error (ProgressError.notFound "Enrollment not found") ∧
    (updateProgress dbEmpty dtoC).2 = dbEmpty :=
  ⟨by decide,
   updateProgress_atomic dbEmpty dtoC
     (ProgressError.notFound "Enrollment not found") (by decide)⟩

theorem updateProgress_row_discipline_witness :
    UniqueProgress dbNoQuiz ∧ UniqueProgress (updateProgress dbNoQuiz dtoC).2 := by
  have hInv : UniqueProgress dbNoQuiz := by
    intro eid lid
    simp [dbNoQuiz]
  exact ⟨hInv, (updateProgress_row_discipline dbNoQuiz dtoC hInv).1⟩

theorem updateProgress_idempotent_witness :
    (updateProgress dbNoQuiz dtoC).1 =
      Except.ok ⟨"e1", "l1", ProgressStatus.COMPLETED, "Lesson One"⟩ ∧
    (((updateProgress (updateProgress dbNoQuiz dtoC).2 dtoC).2.progresses.filter
        (pairPred dtoC.enrollmentId dtoC.lessonId)).length = 1) ∧
    (∃ r₂, (updateProgress (updateProgress dbNoQuiz dtoC).2 dtoC).1 = Except.ok r₂ ∧
      r₂.status =
        (⟨"e1", "l1", ProgressStatus.COMPLETED, "Lesson One"⟩ :
          CourseProgressResponseDto).status) := by
  have hInv : UniqueProgress dbNoQuiz := by
    intro eid lid
    simp [dbNoQuiz]
  have h1 : (updateProgress dbNoQuiz dtoC).1 =
      Except.ok ⟨"e1", "l1", ProgressStatus.COMPLETED, "Lesson One"⟩ := by decide
  obtain ⟨ha, hb⟩ := updateProgress_idempotent dbNoQuiz dtoC _ hInv h1
  exact ⟨h1, ha, hb⟩

theorem getCompletionRate_spec_witness :
    totalFor dbRate "e1" = 3 ∧ completedFor dbRate "e1" = 1 ∧
    (getCompletionRate dbRate "e1").completionRate = 33 ∧
    getCompletionRate dbRate "e2" = ⟨"e2", 0, 0, 0⟩ :=
  ⟨by decide, by decide,
   (getCompletionRate_spec dbRate "e1").2.2 (by decide) (by decide),
   (getCompletionRate_spec dbRate "e2").1 (by decide)⟩
